import Mathlib

/-!
Verification development for the composer-VSCode-plugin repository
(language-server `src/server/src/server.ts` and client `src/client/src/extension.ts`).

JavaScript strings are modelled as lists of characters, JavaScript numbers
appearing in the diagnostic logic as `Int` (all arithmetic in the source is
integer subtraction on parsed integers; `Number.MAX_VALUE`, which is the exact
integer `2^1024 - 2^971`, is modelled by that integer).
-/

namespace ComposerVSCode

/-- JavaScript strings, modelled as lists of characters. -/
abbrev JSString := List Char

/-- Exact integer value of IEEE-754 `Number.MAX_VALUE` (`(2^53 - 1) * 2^971`),
used by `server.ts` line 167 as the default `endColumn`. -/
def numberMaxValue : Int := 2 ^ 1024 - 2 ^ 971

/-- Whitespace characters skipped by JavaScript `parseInt` before parsing. -/
def jsIsWhitespace (c : Char) : Bool :=
  c = ' ' || c = '\t' || c = '\n' || c = '\r' || c = '\x0b' || c = '\x0c'

/-- Value of a list of decimal digit characters, most significant first. -/
def digitsToNat (ds : List Char) : Nat :=
  ds.foldl (fun acc c => acc * 10 + (c.toNat - 48)) 0

/-- Parse the longest leading run of decimal digits; `none` when there is none
(the `NaN` outcome of `parseInt`). -/
def parseDigits (s : List Char) : Option Nat :=
  let ds := s.takeWhile Char.isDigit
  if ds = [] then none else some (digitsToNat ds)

/-- JavaScript `parseInt(s, 10)`: skip leading whitespace, optional sign,
then the longest run of decimal digits; `none` models the `NaN` result. -/
def jsParseInt (s : JSString) : Option Int :=
  let t := s.dropWhile jsIsWhitespace
  match t with
  | [] => none
  | c :: rest =>
    if c = '-' then (parseDigits rest).map (fun n => -(n : Int))
    else if c = '+' then (parseDigits rest).map (fun n => (n : Int))
    else (parseDigits t).map (fun n => (n : Int))

/-- Does `pat` occur in `s` starting at index `i`? -/
def occursAt (s pat : JSString) (i : Nat) : Bool :=
  pat.isPrefixOf (s.drop i)

/-- Largest index `j ≤ n` at which `pat` occurs in `s`, if any. -/
def lastOccAux (s pat : JSString) : Nat → Option Nat
  | 0 => if occursAt s pat 0 then some 0 else none
  | n + 1 => if occursAt s pat (n + 1) then some (n + 1) else lastOccAux s pat n

/-- JavaScript `s.lastIndexOf(pat)`: index of the last occurrence, `-1` if none. -/
def lastIndexOf (s pat : JSString) : Int :=
  match lastOccAux s pat s.length with
  | some i => (i : Int)
  | none => -1

/-- JavaScript `s.substr(start)`: the tail of `s` from `start` on, a negative
`start` counting from the end of the string. -/
def substrFrom (s : JSString) (start : Int) : JSString :=
  let st : Int := if start < 0 then max ((s.length : Int) + start) 0 else start
  s.drop st.toNat

/-- JavaScript `s.substr(start, length)`: `length` characters from `start` on. -/
def substr2 (s : JSString) (start length : Int) : JSString :=
  let st : Int := if start < 0 then max ((s.length : Int) + start) 0 else start
  if length ≤ 0 then [] else (s.drop st.toNat).take length.toNat

/-- Literal searched for at `server.ts` line 187. -/
def lineMarker : JSString := (". Line ").data

/-- Literal searched for at `server.ts` line 195. -/
def columnMarker : JSString := (" column ").data

/-- One endpoint of a structured composer file location (1-based). -/
structure FilePosition where
  line : Int
  column : Int
  deriving DecidableEq

/-- Structured location returned by a genuine composer exception's
`getFileLocation()` accessor: `{start:{line,column}, end:{line,column}}`. -/
structure FileLocation where
  start : FilePosition
  «end» : FilePosition
  deriving DecidableEq

/-- Shape of the `getFileLocation` member of a thrown error:
either the member is not a function (`noAccessor`), or it is a function
returning either a truthy location or a falsy value (`none`). -/
inductive FileLocationAccessor where
  | noAccessor
  | accessor (location : Option FileLocation)
  deriving DecidableEq

/-- A thrown validation error as observed by `server.ts`: its `name`, its
`message`, and its optional `getFileLocation` accessor. -/
structure ComposerError where
  name : JSString
  message : JSString
  getFileLocation : FileLocationAccessor
  deriving DecidableEq

/-- A 0-based position of a VSCode diagnostic range. -/
structure Position where
  line : Int
  character : Int
  deriving DecidableEq

/-- A VSCode diagnostic range. -/
structure Range where
  start : Position
  «end» : Position
  deriving DecidableEq

/-- Diagnostic severities of the `vscode-languageserver` protocol. -/
inductive DiagnosticSeverity where
  | error
  | warning
  | information
  | hint
  deriving DecidableEq

/-- A VSCode diagnostic as assembled at `server.ts` lines 204-213. -/
structure Diagnostic where
  severity : DiagnosticSeverity
  range : Range
  code : JSString
  message : JSString
  source : JSString
  deriving DecidableEq

/-- The `fullMsg` of `server.ts` line 170: `err.name + ": " + err.message`. -/
def jsFullMsg (err : ComposerError) : JSString :=
  err.name ++ (": ").data ++ err.message

/-- Location-extraction part of `buildAndSendDiagnosticFromException`
(`server.ts` lines 163-201): returns
`(curLine, curColumn, endLine, endColumn, finalMsg)`. -/
def buildDiagnosticRangeMsg (err : ComposerError) (lineCount : Int) :
    Int × Int × Int × Int × JSString :=
  let curLine : Int := 0
  let curColumn : Int := 0
  let endLine : Int := lineCount
  let endColumn : Int := numberMaxValue
  let fullMsg := jsFullMsg err
  let finalMsg := fullMsg
  match err.getFileLocation with
  | .accessor location =>
    match location with
    | some location =>
      (location.start.line - 1, location.start.column - 1,
       location.«end».line - 1, location.«end».column - 1, finalMsg)
    | none => (curLine, curColumn, endLine, endColumn, finalMsg)
  | .noAccessor =>
    let index := lastIndexOf fullMsg lineMarker
    if index = -1 then (curLine, curColumn, endLine, endColumn, finalMsg)
    else
      let finalMsg2 := substr2 fullMsg 0 (index + 1)
      let current := substrFrom fullMsg (index + 7)
      let curLine2 : Int :=
        match jsParseInt current with
        | none => 0
        | some v => if v - 1 < 0 then 0 else v - 1
      let endLine2 := curLine2
      let index2 := lastIndexOf current columnMarker
      let current2 := substrFrom current (index2 + 8)
      let curColumn2 : Int :=
        match jsParseInt current2 with
        | none => 0
        | some v => if v - 1 < 0 then 0 else v - 1
      let endColumn2 := curColumn2
      (curLine2, curColumn2, endLine2, endColumn2, finalMsg2)

/-- The single diagnostic built by `buildAndSendDiagnosticFromException`
(`server.ts` lines 162-213). -/
def buildDiagnosticFromException (err : ComposerError) (lineCount : Int) :
    Diagnostic :=
  match buildDiagnosticRangeMsg err lineCount with
  | (curLine, curColumn, endLine, endColumn, finalMsg) =>
    { severity := DiagnosticSeverity.error
      range := { start := { line := curLine, character := curColumn }
                 «end» := { line := endLine, character := endColumn } }
      code := err.name
      message := finalMsg
      source := ("Composer").data }

/-- The whole-document default range of `server.ts` lines 164-167. -/
def defaultWholeDocRange (lineCount : Int) : Range :=
  { start := { line := 0, character := 0 }
    «end» := { line := lineCount, character := numberMaxValue } }

/-- A text document as observed by the server: its language id, its URI, the
full text returned by `getText()` (`none` models a `null` text), and its
`lineCount`. -/
structure TextDocument where
  languageId : JSString
  uri : JSString
  text : Option JSString
  lineCount : Int
  deriving DecidableEq

/-- Modelled from the spec: the `AclFile` class lives in the external
`composer-common` library, not under `src`; per the spec (section 3) it
"represents one permissions document; carries an identifier (its source URI)
and a cached line count (set by the server because the underlying library does
not track it)". -/
structure AclFile where
  identifier : JSString
  text : Option JSString
  lineCount : Int
  deriving DecidableEq

/-- Behaviour of the external `composer-common` library, abstracted:
`addModelFile` maps the model manager's current state and the added text to a
new state plus an optionally thrown error; `aclValidate` is the verdict of
`AclFile.validate()` (also used by `setAclFile`, which validates the file). -/
structure Library where
  addModelFile : List (Option JSString) → Option JSString →
    List (Option JSString) × Option ComposerError
  aclValidate : AclFile → Option ComposerError

/-- State of the two long-lived singleton managers of `server.ts` lines 18-19:
the model manager's accumulated model files and the ACL manager's single
tracked ACL file. -/
structure ServerState where
  modelFiles : List (Option JSString)
  aclFile : Option AclFile
  deriving DecidableEq

/-- Observable calls made while handling one document-change event: calls into
the external library and `connection.sendDiagnostics` publications. -/
inductive ServerEvent where
  | callAddModelFile (txt : Option JSString)
  | callCreateAclFile (uri : JSString) (txt : Option JSString)
  | callSetAclFile (identifier : JSString)
  | callAclValidate (identifier : JSString)
  | sendDiagnostics (uri : JSString) (diagnostics : List Diagnostic)
  deriving DecidableEq

/-- Modelled from the spec: `AclManager.createAclFile(uri, text)` lives in the
external `composer-common` library, not under `src`; per the spec (section 3)
it creates the `AclFile` for one permissions document carrying its source URI
as identifier (the line count is only set afterwards by the server). -/
def createAclFile (uri : JSString) (txt : Option JSString) : AclFile :=
  { identifier := uri, text := txt, lineCount := 0 }

/-- Modelled from the spec: `AclManager.setAclFile` lives in the external
`composer-common` library, not under `src`; per the spec (sections 3 and 4.2)
the manager holds at most one `AclFile` at a time and validating a new
permissions document replaces the tracked file with the fresh one and
validates it, which may throw. -/
def setAclFile (lib : Library) (st : ServerState) (file : AclFile) :
    ServerState × Option ComposerError :=
  ({ st with aclFile := some file }, lib.aclValidate file)

/-- `validateCtoModelFile` (`server.ts` lines 113-121): add the document text
to the model manager; publish an empty diagnostics list on success, the one
built diagnostic on a thrown error. -/
def validateCtoModelFile (lib : Library) (st : ServerState)
    (textDocument : TextDocument) : ServerState × List ServerEvent :=
  let txt := textDocument.text
  match lib.addModelFile st.modelFiles txt with
  | (mm, thrown) =>
    let st2 : ServerState := { st with modelFiles := mm }
    match thrown with
    | none =>
      (st2, [.callAddModelFile txt, .sendDiagnostics textDocument.uri []])
    | some err =>
      (st2, [.callAddModelFile txt,
             .sendDiagnostics textDocument.uri
               [buildDiagnosticFromException err textDocument.lineCount]])

/-- `validateNewAclModelFile` (`server.ts` lines 128-138): create a fresh
`AclFile` from the full document text, record the document's line count on it,
install it via `setAclFile` (which validates and may throw), and publish. -/
def validateNewAclModelFile (lib : Library) (st : ServerState)
    (textDocument : TextDocument) : ServerState × List ServerEvent :=
  let txt := textDocument.text
  let aclFile0 := createAclFile textDocument.uri txt
  let aclFile := { aclFile0 with lineCount := textDocument.lineCount }
  match setAclFile lib st aclFile with
  | (st2, thrown) =>
    match thrown with
    | none =>
      (st2, [.callCreateAclFile textDocument.uri txt,
             .callSetAclFile aclFile.identifier,
             .sendDiagnostics textDocument.uri []])
    | some err =>
      (st2, [.callCreateAclFile textDocument.uri txt,
             .callSetAclFile aclFile.identifier,
             .sendDiagnostics textDocument.uri
               [buildDiagnosticFromException err textDocument.lineCount]])

/-- `validateExistingAclModelFile` (`server.ts` lines 146-153): re-validate the
tracked ACL file and publish for its identifier. -/
def validateExistingAclModelFile (lib : Library) (aclFile : AclFile) :
    List ServerEvent :=
  match lib.aclValidate aclFile with
  | none =>
    [.callAclValidate aclFile.identifier,
     .sendDiagnostics aclFile.identifier []]
  | some err =>
    [.callAclValidate aclFile.identifier,
     .sendDiagnostics aclFile.identifier
       [buildDiagnosticFromException err aclFile.lineCount]]

/-- `validateTextDocument` (`server.ts` lines 83-106): skip documents with
null or empty text; route permissions documents to `validateNewAclModelFile`;
otherwise validate as a model file and then, if an ACL file is tracked,
re-validate it. -/
def validateTextDocument (lib : Library) (st : ServerState)
    (textDocument : TextDocument) : ServerState × List ServerEvent :=
  let langId := textDocument.languageId
  let txt := textDocument.text
  match txt with
  | some t =>
    if t.length > 0 then
      if langId == ("composer-acl").data then
        validateNewAclModelFile lib st textDocument
      else
        match validateCtoModelFile lib st textDocument with
        | (st1, evs1) =>
          match st1.aclFile with
          | some aclFile => (st1, evs1 ++ validateExistingAclModelFile lib aclFile)
          | none => (st1, evs1)
    else (st, [])
  | none => (st, [])

/-- Diagnostics lists published for `uri` within an event list. -/
def publishedFor (evs : List ServerEvent) (uri : JSString) :
    List (List Diagnostic) :=
  evs.filterMap (fun e =>
    match e with
    | .sendDiagnostics u ds => if u == uri then some ds else none
    | _ => none)

/-- Configuration read by the client's `handleGenerateUml`
(`extension.ts` lines 128-131). -/
structure UmlFlowConfig where
  keepSrcFileOpen : Bool
  autoShowDiagam : Bool
  deriving DecidableEq

/-- Editor-side outcomes observed by the continuation that runs after the
`textEditor.edit` call of `extension.ts` line 191: whether the edit was
applied, whether the save succeeded, the outcome of the
`plantuml.preview` command (`Except` models a thrown exception), the URI of
the active editor at close time (if any), the URIs of the visible editors and
of all open text documents, the temporary document's URI and the originating
file name. -/
structure UmlFlowEnv where
  editApplied : Bool
  saved : Bool
  previewOutcome : Except JSString (Option JSString)
  activeEditorUri : Option JSString
  visibleEditors : List JSString
  openTextDocuments : List JSString
  umlDocUri : JSString
  originatingFileName : JSString

/-- Observable editor actions performed by the client's diagram flow. -/
inductive ClientAction where
  | consoleLog (msg : JSString)
  | showErrorMessage (msg : JSString)
  | saveDocument
  | executeCommand (cmd : JSString)
  | showTextDocument (uri : JSString)
  deriving DecidableEq

/-- Close-or-cursor step of `handleGenerateUml` (`extension.ts` lines
222-240): close the temporary editor when configured to, guarding against
closing the wrong window, otherwise move the cursor to the top. -/
def umlCloseStep (cfg : UmlFlowConfig) (env : UmlFlowEnv) : List ClientAction :=
  if cfg.keepSrcFileOpen = false then
    match env.activeEditorUri with
    | some uri =>
      if uri == env.umlDocUri then
        [.executeCommand (("workbench.action.closeActiveEditor").data)]
      else
        [.consoleLog ((("CLIENT: could not close ActiveTextEditor: wrong URI: ").data)
          ++ uri ++ ((" : ").data) ++ env.umlDocUri)]
    | none => []
  else
    [.executeCommand (("cursorTop").data)]

/-- Refocus step of `handleGenerateUml` (`extension.ts` lines 244-265): when
showing the diagram, restore focus to the originating document, searching the
visible editors first, then all open text documents; otherwise leave focus. -/
def umlRefocusStep (cfg : UmlFlowConfig) (env : UmlFlowEnv) : List ClientAction :=
  if cfg.autoShowDiagam then
    if env.visibleEditors.contains env.originatingFileName then
      [.showTextDocument env.originatingFileName]
    else if env.openTextDocuments.contains env.originatingFileName then
      [.showTextDocument env.originatingFileName]
    else []
  else []

/-- Continuation of `handleGenerateUml` that runs once the edit replacing the
temporary file's content has completed (`extension.ts` lines 195-271): abort
with a log message when the edit was not applied; otherwise save, optionally
invoke the previewer (aborting with messages when it throws), close or keep
the temporary editor, and refocus the originating document. -/
def handleGenerateUmlAfterEdit (cfg : UmlFlowConfig) (env : UmlFlowEnv) :
    List ClientAction :=
  if env.editApplied = false then
    [.consoleLog (("Client could not apply edit").data)]
  else
    let saveEvents : List ClientAction :=
      [.saveDocument] ++
        (if env.saved = false then
          [.consoleLog ((("Client could not save doc: ").data) ++ env.umlDocUri)]
         else [])
    if cfg.autoShowDiagam then
      match env.previewOutcome with
      | .error ex =>
        saveEvents ++
          [.executeCommand (("plantuml.preview").data),
           .consoleLog ((("CLIENT error: ").data) ++ ex),
           .showErrorMessage ex]
      | .ok _ =>
        saveEvents ++ [.executeCommand (("plantuml.preview").data)]
          ++ umlCloseStep cfg env ++ umlRefocusStep cfg env
    else
      saveEvents ++ umlCloseStep cfg env ++ umlRefocusStep cfg env

lemma occursAt_true_iff {s pat : JSString} {i : Nat} :
    occursAt s pat i = true ↔ pat <+: s.drop i := by
  simp [occursAt]

lemma occursAt_append (u pat v : JSString) :
    occursAt (u ++ pat ++ v) pat u.length = true := by
  rw [occursAt_true_iff, List.append_assoc, List.drop_left]
  exact List.prefix_append _ _

lemma infix_of_occursAt {s pat : JSString} {j : Nat}
    (h : occursAt s pat j = true) : pat <:+: s :=
  List.infix_iff_prefix_suffix.mpr
    ⟨s.drop j, occursAt_true_iff.mp h, List.drop_suffix _ _⟩

lemma infix_drop_of_occursAt_gt {s pat : JSString} {i j : Nat} (hij : i < j)
    (h : occursAt s pat j = true) : pat <:+: s.drop (i + 1) :=
  List.infix_iff_prefix_suffix.mpr
    ⟨s.drop j, occursAt_true_iff.mp h,
     List.drop_suffix_drop_left s (by omega)⟩

lemma lastOccAux_eq_some {s pat : JSString} {i : Nat}
    (hi : occursAt s pat i = true) :
    ∀ n, i ≤ n → (∀ j, i < j → j ≤ n → occursAt s pat j = false) →
      lastOccAux s pat n = some i := by
  intro n
  induction n with
  | zero =>
    intro hin _
    have h0 : i = 0 := Nat.le_zero.mp hin
    subst h0
    simp [lastOccAux, hi]
  | succ n ih =>
    intro hin hafter
    by_cases hc : i = n + 1
    · subst hc
      simp [lastOccAux, hi]
    · have hlt : i ≤ n := by omega
      have hfalse : occursAt s pat (n + 1) = false :=
        hafter (n + 1) (by omega) (Nat.le_refl _)
      simp only [lastOccAux, hfalse, Bool.false_eq_true, if_false]
      exact ih hlt (fun j h1 h2 => hafter j h1 (by omega))

lemma lastOccAux_eq_none_iff {s pat : JSString} :
    ∀ n, (lastOccAux s pat n = none ↔ ∀ j, j ≤ n → occursAt s pat j = false) := by
  intro n
  induction n with
  | zero =>
    constructor
    · intro h j hj
      have h0 : j = 0 := Nat.le_zero.mp hj
      subst h0
      by_contra hb
      have hb2 : occursAt s pat 0 = true := by
        cases h3 : occursAt s pat 0
        · exact absurd h3 hb
        · rfl
      simp [lastOccAux, hb2] at h
    · intro h
      simp [lastOccAux, h 0 (Nat.le_refl _)]
  | succ n ih =>
    constructor
    · intro h j hj
      by_cases hc : occursAt s pat (n + 1) = true
      · simp [lastOccAux, hc] at h
      · have hc2 : occursAt s pat (n + 1) = false := by
          cases h3 : occursAt s pat (n + 1)
          · rfl
          · exact absurd h3 hc
        simp only [lastOccAux, hc2, Bool.false_eq_true, if_false] at h
        by_cases hj2 : j = n + 1
        · subst hj2; exact hc2
        · exact ih.mp h j (by omega)
    · intro h
      have hc2 : occursAt s pat (n + 1) = false := h (n + 1) (Nat.le_refl _)
      simp only [lastOccAux, hc2, Bool.false_eq_true, if_false]
      exact ih.mpr (fun j hj => h j (by omega))

lemma lastIndexOf_eq_of {s pat : JSString} {i : Nat}
    (hi : occursAt s pat i = true) (hlen : i ≤ s.length)
    (hafter : ¬ pat <:+: s.drop (i + 1)) :
    lastIndexOf s pat = (i : Int) := by
  have h := lastOccAux_eq_some hi s.length hlen (fun j h1 _ => by
    cases hb : occursAt s pat j
    · rfl
    · exact absurd (infix_drop_of_occursAt_gt h1 hb) hafter)
  simp [lastIndexOf, h]

lemma lastIndexOf_eq_neg_one_iff (s pat : JSString) :
    lastIndexOf s pat = -1 ↔ ¬ pat <:+: s := by
  constructor
  · intro h hinf
    obtain ⟨u, v, huv⟩ := hinf
    have hocc : occursAt s pat u.length = true := by
      subst huv; exact occursAt_append u pat v
    have hlen : u.length ≤ s.length := by
      subst huv; simp [List.length_append]
    cases h2 : lastOccAux s pat s.length with
    | some k => simp [lastIndexOf, h2] at h
    | none => exact absurd ((lastOccAux_eq_none_iff s.length).mp h2 u.length hlen) (by simp [hocc])
  · intro hninf
    have h2 : lastOccAux s pat s.length = none :=
      (lastOccAux_eq_none_iff s.length).mpr (fun j _ => by
        cases hb : occursAt s pat j
        · rfl
        · exact absurd (infix_of_occursAt hb) hninf)
    simp [lastIndexOf, h2]

lemma not_infix_of_count_lt (c : Char) {l pat : JSString}
    (h : List.count c l < List.count c pat) : ¬ pat <:+: l :=
  fun hinf => absurd (hinf.count_le c) (by omega)

lemma drop_length_add_append (u w : List Char) (n : Nat) :
    (u ++ w).drop (u.length + n) = w.drop n := by
  rw [← List.drop_drop, List.drop_left]

lemma not_mem_of_all_isDigit {ds : List Char}
    (hd : ∀ c ∈ ds, c.isDigit = true) {x : Char} (hx : x.isDigit = false) :
    x ∉ ds := by
  intro hmem
  rw [hd x hmem] at hx
  exact Bool.noConfusion hx

lemma count_eq_zero_of_all_isDigit {ds : List Char}
    (hd : ∀ c ∈ ds, c.isDigit = true) {x : Char} (hx : x.isDigit = false) :
    List.count x ds = 0 :=
  List.count_eq_zero.mpr (not_mem_of_all_isDigit hd hx)

lemma not_ws_of_isDigit {c : Char} (h : c.isDigit = true) :
    jsIsWhitespace c = false := by
  have h0 : c ≠ ' ' := fun e => by subst e; exact absurd h (by decide)
  have h1 : c ≠ '\t' := fun e => by subst e; exact absurd h (by decide)
  have h2 : c ≠ '\n' := fun e => by subst e; exact absurd h (by decide)
  have h3 : c ≠ '\r' := fun e => by subst e; exact absurd h (by decide)
  have h4 : c ≠ '\x0b' := fun e => by subst e; exact absurd h (by decide)
  have h5 : c ≠ '\x0c' := fun e => by subst e; exact absurd h (by decide)
  simp [jsIsWhitespace, h0, h1, h2, h3, h4, h5]

lemma ne_dash_of_isDigit {c : Char} (h : c.isDigit = true) : c ≠ '-' :=
  fun e => by subst e; exact absurd h (by decide)

lemma ne_plus_of_isDigit {c : Char} (h : c.isDigit = true) : c ≠ '+' :=
  fun e => by subst e; exact absurd h (by decide)

lemma jsParseInt_digits_append (ds r : List Char)
    (hd : ∀ c ∈ ds, c.isDigit = true) (hne : ds ≠ [])
    (hr : r.takeWhile Char.isDigit = []) :
    jsParseInt (ds ++ r) = some ((digitsToNat ds : Nat) : Int) := by
  obtain ⟨d, ds', rfl⟩ := List.exists_cons_of_ne_nil hne
  have hdd : d.isDigit = true := hd d (by simp)
  have hws : jsIsWhitespace d = false := not_ws_of_isDigit hdd
  have htw : ((d :: ds') ++ r).takeWhile Char.isDigit = d :: ds' := by
    rw [List.takeWhile_append_of_pos hd, hr, List.append_nil]
  have hdw : List.dropWhile jsIsWhitespace (d :: (ds' ++ r)) = d :: (ds' ++ r) :=
    List.dropWhile_cons_of_neg (by simp [hws])
  simp only [jsParseInt, List.cons_append, hdw]
  rw [if_neg (ne_dash_of_isDigit hdd), if_neg (ne_plus_of_isDigit hdd)]
  simp only [parseDigits, ← List.cons_append, htw]
  rw [if_neg (by simp)]
  rfl

lemma substrFrom_natCast (s : JSString) (n : Nat) :
    substrFrom s (n : Int) = s.drop n := by
  simp only [substrFrom]
  rw [if_neg (by omega)]
  have h : ((n : Int)).toNat = n := by omega
  rw [h]

lemma substr2_zero_natCast (s : JSString) (n : Nat) :
    substr2 s 0 (n : Int) = s.take n := by
  cases n with
  | zero => simp [substr2]
  | succ m =>
    have hpos : ¬ ((m + 1 : Nat) : Int) ≤ 0 := by omega
    simp [substr2, hpos]

lemma take_length_add_append (u w : List Char) (n : Nat) :
    List.take (u.length + n) (u ++ w) = u ++ w.take n := by
  induction u with
  | nil => simp
  | cons a u ih =>
    simp only [List.length_cons, List.cons_append]
    rw [show u.length + 1 + n = (u.length + n) + 1 from by omega,
        List.take_succ_cons, ih]

lemma buildRangeMsg_fallback (err : ComposerError) (lineCount : Int)
    (p dsN dsM : List Char)
    (hacc : err.getFileLocation = FileLocationAccessor.noAccessor)
    (hmsg : err.message = p ++ lineMarker ++ dsN ++ columnMarker ++ dsM)
    (hdN : ∀ c ∈ dsN, c.isDigit = true) (hneN : dsN ≠ [])
    (hdM : ∀ c ∈ dsM, c.isDigit = true) (hneM : dsM ≠ [])
    (h1N : 1 ≤ digitsToNat dsN) (h1M : 1 ≤ digitsToNat dsM) :
    buildDiagnosticRangeMsg err lineCount =
      ((digitsToNat dsN : Int) - 1, (digitsToNat dsM : Int) - 1,
       (digitsToNat dsN : Int) - 1, (digitsToNat dsM : Int) - 1,
       err.name ++ (": ").data ++ p ++ ['.']) := by
  have hfull : jsFullMsg err =
      (err.name ++ (": ").data ++ p) ++ lineMarker ++ (dsN ++ columnMarker ++ dsM) := by
    simp [jsFullMsg, hmsg, List.append_assoc]
  have hfullR : jsFullMsg err =
      (err.name ++ (": ").data ++ p) ++ (lineMarker ++ (dsN ++ columnMarker ++ dsM)) := by
    simp [jsFullMsg, hmsg, List.append_assoc]
  have hlm : lineMarker = '.' :: ((" Line ").data) := by decide
  have hcm : columnMarker = ' ' :: ((("column ").data)) := by decide
  have h7 : lineMarker.length = 7 := by decide
  have h8 : columnMarker.length = 8 := by decide
  have c1N : List.count '.' dsN = 0 := count_eq_zero_of_all_isDigit hdN (by decide)
  have c1M : List.count '.' dsM = 0 := count_eq_zero_of_all_isDigit hdM (by decide)
  have c2M : List.count ' ' dsM = 0 := count_eq_zero_of_all_isDigit hdM (by decide)
  -- the last occurrence of ". Line " in fullMsg is the explicit one
  have hF1 : lastIndexOf (jsFullMsg err) lineMarker =
      (((err.name ++ (": ").data ++ p).length : Nat) : Int) := by
    apply lastIndexOf_eq_of
    · rw [hfull]; exact occursAt_append _ _ _
    · rw [hfull]; simp [List.length_append]
    · have hdrop : (jsFullMsg err).drop ((err.name ++ (": ").data ++ p).length + 1) =
          (" Line ").data ++ (dsN ++ columnMarker ++ dsM) := by
        rw [hfullR, drop_length_add_append, hlm, List.cons_append]
        simp
      rw [hdrop]
      apply not_infix_of_count_lt '.'
      have d1 : List.count '.' ((" Line ").data) = 0 := by decide
      have d2 : List.count '.' columnMarker = 0 := by decide
      have d3 : List.count '.' lineMarker = 1 := by decide
      simp only [List.count_append, c1N, c1M, d1, d2, d3]
      omega
  have hne1 : ¬ ((((err.name ++ (": ").data ++ p).length : Nat) : Int) = -1) := by
    omega
  -- the truncated message keeps everything up to and including the period
  have hF3 : substr2 (jsFullMsg err) 0
        ((((err.name ++ (": ").data ++ p).length : Nat) : Int) + 1) =
      err.name ++ (": ").data ++ p ++ ['.'] := by
    rw [show ((((err.name ++ (": ").data ++ p).length : Nat) : Int) + 1) =
        (((err.name ++ (": ").data ++ p).length + 1 : Nat) : Int) from by push_cast; ring]
    rw [substr2_zero_natCast, hfullR, take_length_add_append, hlm, List.cons_append]
    simp
  -- the text stepped over ". Line "
  have hF4 : substrFrom (jsFullMsg err)
        ((((err.name ++ (": ").data ++ p).length : Nat) : Int) + 7) =
      dsN ++ columnMarker ++ dsM := by
    rw [show ((((err.name ++ (": ").data ++ p).length : Nat) : Int) + 7) =
        (((err.name ++ (": ").data ++ p).length + 7 : Nat) : Int) from by push_cast; ring]
    rw [substrFrom_natCast, hfullR, ← h7, drop_length_add_append, List.drop_left]
  -- parsing the line number
  have hF5 : jsParseInt (dsN ++ columnMarker ++ dsM) =
      some ((digitsToNat dsN : Nat) : Int) := by
    rw [List.append_assoc]
    apply jsParseInt_digits_append dsN (columnMarker ++ dsM) hdN hneN
    rw [hcm, List.cons_append, List.takeWhile_cons_of_neg (by decide)]
  have hif1 : ¬ (((digitsToNat dsN : Nat) : Int) - 1 < 0) := by omega
  -- the last occurrence of " column " in the remainder is the explicit one
  have hF7 : lastIndexOf (dsN ++ columnMarker ++ dsM) columnMarker =
      ((dsN.length : Nat) : Int) := by
    apply lastIndexOf_eq_of
    · exact occursAt_append _ _ _
    · simp [List.length_append]
    · have hdrop : (dsN ++ columnMarker ++ dsM).drop (dsN.length + 1) =
          ("column ").data ++ dsM := by
        rw [List.append_assoc, drop_length_add_append, hcm, List.cons_append]
        simp
      rw [hdrop]
      apply not_infix_of_count_lt ' '
      have d1 : List.count ' ' (("column ").data) = 1 := by decide
      have d2 : List.count ' ' columnMarker = 2 := by decide
      simp only [List.count_append, c2M, d1, d2]
      omega
  -- the text stepped over " column "
  have hF8 : substrFrom (dsN ++ columnMarker ++ dsM)
        (((dsN.length : Nat) : Int) + 8) = dsM := by
    rw [show (((dsN.length : Nat) : Int) + 8) =
        ((dsN.length + 8 : Nat) : Int) from by push_cast; ring]
    rw [substrFrom_natCast, List.append_assoc, ← h8, drop_length_add_append,
        List.drop_left]
  -- parsing the column number
  have hF9 : jsParseInt dsM = some ((digitsToNat dsM : Nat) : Int) := by
    have h := jsParseInt_digits_append dsM [] hdM hneM rfl
    rw [List.append_nil] at h
    exact h
  have hif2 : ¬ (((digitsToNat dsM : Nat) : Int) - 1 < 0) := by omega
  -- assemble
  simp only [buildDiagnosticRangeMsg, hacc, hF1, hne1, if_false, hF3, hF4, hF5,
    hF7, hF8, hF9, hif1, hif2, if_true, ite_false, ite_true]

/-- Clamp applied by `server.ts` lines 192-193 and 197-198 to a parsed
1-based coordinate: subtract one, and use 0 on `NaN` or a negative result. -/
def clampParse (r : Option Int) : Int :=
  match r with
  | none => 0
  | some v => if v - 1 < 0 then 0 else v - 1

/-- The `current` variable of `server.ts` line 191: the text following the
last `". Line "` occurrence. -/
def fallbackCurrent (err : ComposerError) : JSString :=
  substrFrom (jsFullMsg err) (lastIndexOf (jsFullMsg err) lineMarker + 7)

/-- The `current` variable of `server.ts` line 196: the text following the
last `" column "` occurrence inside `fallbackCurrent`. -/
def fallbackCurrent2 (err : ComposerError) : JSString :=
  substrFrom (fallbackCurrent err)
    (lastIndexOf (fallbackCurrent err) columnMarker + 8)

lemma buildRangeMsg_fallback_clamp (err : ComposerError) (lineCount : Int)
    (hacc : err.getFileLocation = FileLocationAccessor.noAccessor)
    (hidx : ¬ lastIndexOf (jsFullMsg err) lineMarker = -1) :
    buildDiagnosticRangeMsg err lineCount =
      (clampParse (jsParseInt (fallbackCurrent err)),
       clampParse (jsParseInt (fallbackCurrent2 err)),
       clampParse (jsParseInt (fallbackCurrent err)),
       clampParse (jsParseInt (fallbackCurrent2 err)),
       substr2 (jsFullMsg err) 0 (lastIndexOf (jsFullMsg err) lineMarker + 1)) := by
  simp only [buildDiagnosticRangeMsg, hacc]
  rw [if_neg hidx]
  rfl

lemma clampParse_eq_zero {r : Option Int}
    (h : r = none ∨ ∃ v, r = some v ∧ v - 1 < 0) : clampParse r = 0 := by
  rcases h with h | ⟨v, hv, hvneg⟩
  · rw [h]; rfl
  · rw [hv]; simp [clampParse, hvneg]

lemma substr2_zero_prefix_self (s : JSString) (length : Int) :
    substr2 s 0 length <+: s := by
  by_cases h : length ≤ 0
  · simp [substr2, h]
  · have h2 : substr2 s 0 length = s.take length.toNat := by
      simp only [substr2]
      rw [if_neg h, if_neg (show ¬ ((0 : Int) < 0) from by omega)]
      simp
    rw [h2]
    exact List.take_prefix _ _

/-- Claim C1: for every error whose `getFileLocation` returns a truthy
structured location, the emitted diagnostic range is the location converted
to 0-based by subtracting exactly 1 from every coordinate. -/
theorem claim_C1_structured_location_range (err : ComposerError)
    (location : FileLocation) (lineCount : Int)
    (h : err.getFileLocation = FileLocationAccessor.accessor (some location)) :
    (buildDiagnosticFromException err lineCount).range =
      { start := { line := location.start.line - 1,
                   character := location.start.column - 1 }
        «end» := { line := location.«end».line - 1,
                   character := location.«end».column - 1 } } := by
  simp [buildDiagnosticFromException, buildDiagnosticRangeMsg, h]

/-- Concrete fixture: an error with a structured location. -/
def c1loc : FileLocation :=
  { start := { line := 3, column := 5 }, «end» := { line := 4, column := 9 } }

/-- Concrete fixture: an error exposing `c1loc` via `getFileLocation`. -/
def c1err : ComposerError :=
  { name := ("ParseException").data, message := ("bad input").data,
    getFileLocation := FileLocationAccessor.accessor (some c1loc) }

theorem claim_C1_witness :
    c1err.getFileLocation = FileLocationAccessor.accessor (some c1loc) ∧
    (buildDiagnosticFromException c1err 10).range =
      { start := { line := 2, character := 4 }
        «end» := { line := 3, character := 8 } } := by
  constructor
  · rfl
  · have h := claim_C1_structured_location_range c1err c1loc 10 rfl
    rw [h]
    decide

/-- Concrete fixture: an error without the accessor whose `name` contains
`". Line "` while its `message` does not. -/
def c2err : ComposerError :=
  { name := ("X. Line 1").data, message := ("m").data,
    getFileLocation := FileLocationAccessor.noAccessor }

/-- Claim C2 counterexample: `c2err` has no accessor and its message does not
contain `". Line "`, yet the emitted range is not the whole-document default,
because the code searches the name-prefixed full message, and `c2err`'s name
contains `". Line "`. -/
theorem claim_C2_counterexample :
    c2err.getFileLocation = FileLocationAccessor.noAccessor ∧
    ¬ (lineMarker <:+: c2err.message) ∧
    (buildDiagnosticFromException c2err 10).range ≠ defaultWholeDocRange 10 ∧
    (buildDiagnosticFromException c2err 10).range =
      { start := { line := 0, character := 0 }
        «end» := { line := 0, character := 0 } } := by
  refine ⟨rfl, by decide, by decide, by decide⟩

/-- Claim C2 (amended): for every error whose accessor returns a falsy
location, and for every error without the accessor whose full message text
`err.name ++ ": " ++ err.message` does not contain `". Line "`, the emitted
range is the whole-document default `(0,0)-(lineCount, MAX_COLUMN)`. -/
theorem claim_C2_amended_default_range (err : ComposerError) (lineCount : Int) :
    (err.getFileLocation = FileLocationAccessor.accessor none →
      (buildDiagnosticFromException err lineCount).range =
        defaultWholeDocRange lineCount) ∧
    (err.getFileLocation = FileLocationAccessor.noAccessor →
      ¬ (lineMarker <:+: jsFullMsg err) →
      (buildDiagnosticFromException err lineCount).range =
        defaultWholeDocRange lineCount) := by
  constructor
  · intro h
    simp [buildDiagnosticFromException, buildDiagnosticRangeMsg, h,
      defaultWholeDocRange]
  · intro h hni
    have hidx : lastIndexOf (jsFullMsg err) lineMarker = -1 :=
      (lastIndexOf_eq_neg_one_iff _ _).mpr hni
    simp [buildDiagnosticFromException, buildDiagnosticRangeMsg, h, hidx,
      defaultWholeDocRange]

/-- Concrete fixture: a plain error without the accessor and without any
`". Line "` in its full message. -/
def c2okerr : ComposerError :=
  { name := ("TypeError").data, message := ("boom").data,
    getFileLocation := FileLocationAccessor.noAccessor }

theorem claim_C2_witness :
    (buildDiagnosticFromException c2okerr 7).range = defaultWholeDocRange 7 :=
  (claim_C2_amended_default_range c2okerr 7).2 rfl (by decide)

/-- Concrete fixture: an error without the accessor whose message embeds
`". Line 5 column 3"` as text. -/
def c3err : ComposerError :=
  { name := ("Error").data, message := ("Foo error. Line 5 column 3").data,
    getFileLocation := FileLocationAccessor.noAccessor }

/-- Claim C3 counterexample: for the error named `"Error"` with message
`"Foo error. Line 5 column 3"`, the emitted diagnostic message is
`"Error: Foo error."`, not the bare `"Foo error."` asserted by the claim:
the truncation applies to the name-prefixed full message. -/
theorem claim_C3_counterexample :
    c3err.getFileLocation = FileLocationAccessor.noAccessor ∧
    (buildDiagnosticFromException c3err 10).message ≠ ("Foo error.").data ∧
    (buildDiagnosticFromException c3err 10).message = ("Error: Foo error.").data := by
  refine ⟨rfl, by decide, by decide⟩

/-- Claim C3 (amended): for every error without the accessor whose message
ends in `". Line N column M"` with parsable 1-based integers `N` and `M`, the
emitted diagnostic message is the name-prefixed full error text truncated to
everything up to and including the period before `" Line"` (for the example
with name `"Error"`, exactly `"Error: Foo error."`), and the emitted range is
the single point `(N-1, M-1)-(N-1, M-1)` with start equal to end in both line
and column. -/
theorem claim_C3_amended_fallback (err : ComposerError) (lineCount : Int)
    (p dsN dsM : List Char)
    (hacc : err.getFileLocation = FileLocationAccessor.noAccessor)
    (hmsg : err.message = p ++ lineMarker ++ dsN ++ columnMarker ++ dsM)
    (hdN : ∀ c ∈ dsN, c.isDigit = true) (hneN : dsN ≠ [])
    (hdM : ∀ c ∈ dsM, c.isDigit = true) (hneM : dsM ≠ [])
    (h1N : 1 ≤ digitsToNat dsN) (h1M : 1 ≤ digitsToNat dsM) :
    (buildDiagnosticFromException err lineCount).message =
      err.name ++ (": ").data ++ p ++ ['.'] ∧
    (buildDiagnosticFromException err lineCount).range =
      { start := { line := (digitsToNat dsN : Int) - 1,
                   character := (digitsToNat dsM : Int) - 1 }
        «end» := { line := (digitsToNat dsN : Int) - 1,
                   character := (digitsToNat dsM : Int) - 1 } } := by
  have h := buildRangeMsg_fallback err lineCount p dsN dsM hacc hmsg hdN hneN
    hdM hneM h1N h1M
  constructor
  · simp [buildDiagnosticFromException, h]
  · simp [buildDiagnosticFromException, h]

theorem claim_C3_witness :
    (buildDiagnosticFromException c3err 10).message = ("Error: Foo error.").data ∧
    (buildDiagnosticFromException c3err 10).range =
      { start := { line := 4, character := 2 }
        «end» := { line := 4, character := 2 } } := by
  have h := claim_C3_amended_fallback c3err 10 (("Foo error").data)
    (['5']) (['3']) rfl (by decide) (by decide) (by decide) (by decide)
    (by decide) (by decide) (by decide)
  exact ⟨h.1.trans (by decide), h.2.trans (by decide)⟩

/-- Claim C4: in the unstructured-message fallback path, a line that does not
parse as an integer, or whose parsed value minus 1 is negative, yields start
and end line 0, and likewise a failing column yields start and end column 0. -/
theorem claim_C4_parse_failure_defaults (err : ComposerError) (lineCount : Int)
    (hacc : err.getFileLocation = FileLocationAccessor.noAccessor)
    (hidx : ¬ lastIndexOf (jsFullMsg err) lineMarker = -1) :
    ((jsParseInt (fallbackCurrent err) = none ∨
        (∃ v, jsParseInt (fallbackCurrent err) = some v ∧ v - 1 < 0)) →
      (buildDiagnosticFromException err lineCount).range.start.line = 0 ∧
      (buildDiagnosticFromException err lineCount).range.«end».line = 0) ∧
    ((jsParseInt (fallbackCurrent2 err) = none ∨
        (∃ v, jsParseInt (fallbackCurrent2 err) = some v ∧ v - 1 < 0)) →
      (buildDiagnosticFromException err lineCount).range.start.character = 0 ∧
      (buildDiagnosticFromException err lineCount).range.«end».character = 0) := by
  have h := buildRangeMsg_fallback_clamp err lineCount hacc hidx
  constructor
  · intro hz
    have hc : clampParse (jsParseInt (fallbackCurrent err)) = 0 :=
      clampParse_eq_zero hz
    constructor <;> simp [buildDiagnosticFromException, h, hc]
  · intro hz
    have hc : clampParse (jsParseInt (fallbackCurrent2 err)) = 0 :=
      clampParse_eq_zero hz
    constructor <;> simp [buildDiagnosticFromException, h, hc]

/-- Concrete fixture: an error whose message has `". Line "` followed by
unparsable text and no parsable column. -/
def c4err : ComposerError :=
  { name := ("Error").data, message := ("oops. Line x column y").data,
    getFileLocation := FileLocationAccessor.noAccessor }

theorem claim_C4_witness :
    (buildDiagnosticFromException c4err 9).range.start.line = 0 ∧
    (buildDiagnosticFromException c4err 9).range.«end».line = 0 ∧
    (buildDiagnosticFromException c4err 9).range.start.character = 0 ∧
    (buildDiagnosticFromException c4err 9).range.«end».character = 0 := by
  have h := claim_C4_parse_failure_defaults c4err 9 rfl (by decide)
  have h1 := h.1 (Or.inl (by decide))
  have h2 := h.2 (Or.inl (by decide))
  exact ⟨h1.1, h1.2, h2.1, h2.2⟩

lemma validateCtoModelFile_aclFile (lib : Library) (st : ServerState)
    (d : TextDocument) :
    (validateCtoModelFile lib st d).1.aclFile = st.aclFile := by
  simp only [validateCtoModelFile]
  cases hA : (lib.addModelFile st.modelFiles d.text).2 <;> rfl

lemma validateCtoModelFile_events (lib : Library) (st : ServerState)
    (d : TextDocument) :
    ∃ d1, (validateCtoModelFile lib st d).2 =
      [ServerEvent.callAddModelFile d.text,
       ServerEvent.sendDiagnostics d.uri d1] := by
  simp only [validateCtoModelFile]
  cases hA : (lib.addModelFile st.modelFiles d.text).2 with
  | none => exact ⟨[], rfl⟩
  | some e => exact ⟨[buildDiagnosticFromException e d.lineCount], rfl⟩

lemma validateExistingAclModelFile_events (lib : Library) (f : AclFile) :
    ∃ d2, validateExistingAclModelFile lib f =
      [ServerEvent.callAclValidate f.identifier,
       ServerEvent.sendDiagnostics f.identifier d2] := by
  simp only [validateExistingAclModelFile]
  cases hV : lib.aclValidate f with
  | none => exact ⟨[], rfl⟩
  | some e => exact ⟨[buildDiagnosticFromException e f.lineCount], rfl⟩

/-- Claim C5: every validation attempt results in exactly one
publish-diagnostics call for the triggering document's URI -- a singleton
diagnostics list when the library call throws, an empty list when it
succeeds -- and the exception never propagates (all three validation
functions are total). -/
theorem claim_C5_exactly_one_publish (lib : Library) (st : ServerState)
    (textDocument : TextDocument) (aclFile : AclFile) :
    (∃ ds, publishedFor (validateCtoModelFile lib st textDocument).2
        textDocument.uri = [ds] ∧
      ((lib.addModelFile st.modelFiles textDocument.text).2 = none → ds = []) ∧
      (∀ e, (lib.addModelFile st.modelFiles textDocument.text).2 = some e →
        ds.length = 1)) ∧
    (∃ ds, publishedFor (validateNewAclModelFile lib st textDocument).2
        textDocument.uri = [ds] ∧
      (lib.aclValidate { createAclFile textDocument.uri textDocument.text with
          lineCount := textDocument.lineCount } = none → ds = []) ∧
      (∀ e, lib.aclValidate { createAclFile textDocument.uri textDocument.text with
          lineCount := textDocument.lineCount } = some e → ds.length = 1)) ∧
    (∃ ds, publishedFor (validateExistingAclModelFile lib aclFile)
        aclFile.identifier = [ds] ∧
      (lib.aclValidate aclFile = none → ds = []) ∧
      (∀ e, lib.aclValidate aclFile = some e → ds.length = 1)) := by
  refine ⟨?_, ?_, ?_⟩
  · cases hA : lib.addModelFile st.modelFiles textDocument.text with
    | mk mm thrown =>
      cases thrown with
      | none =>
        refine ⟨[], ?_, fun _ => rfl, fun e he => ?_⟩
        · simp [validateCtoModelFile, hA, publishedFor]
        · simp at he
      | some e0 =>
        refine ⟨[buildDiagnosticFromException e0 textDocument.lineCount],
          ?_, fun hn => ?_, fun e he => rfl⟩
        · simp [validateCtoModelFile, hA, publishedFor]
        · simp at hn
  · cases hV : lib.aclValidate { createAclFile textDocument.uri textDocument.text with
        lineCount := textDocument.lineCount } with
    | none =>
      refine ⟨[], ?_, fun _ => rfl, fun e he => ?_⟩
      · simp [validateNewAclModelFile, setAclFile, hV, publishedFor]
      · exact Option.noConfusion he
    | some e0 =>
      refine ⟨[buildDiagnosticFromException e0 textDocument.lineCount],
        ?_, fun hn => ?_, fun e he => rfl⟩
      · simp [validateNewAclModelFile, setAclFile, hV, publishedFor]
      · exact Option.noConfusion hn
  · cases hV : lib.aclValidate aclFile with
    | none =>
      refine ⟨[], ?_, fun _ => rfl, fun e he => ?_⟩
      · simp [validateExistingAclModelFile, hV, publishedFor]
      · exact Option.noConfusion he
    | some e0 =>
      refine ⟨[buildDiagnosticFromException e0 aclFile.lineCount],
        ?_, fun hn => ?_, fun e he => rfl⟩
      · simp [validateExistingAclModelFile, hV, publishedFor]
      · exact Option.noConfusion hn

/-- Concrete fixture: a library whose calls all succeed. -/
def libOk : Library :=
  { addModelFile := fun mm txt => (mm ++ [txt], none)
    aclValidate := fun _ => none }

/-- Concrete fixture: the initial server state. -/
def st0 : ServerState := { modelFiles := [], aclFile := none }

/-- Concrete fixture: a model document. -/
def doc0 : TextDocument :=
  { languageId := ("composer").data, uri := ("file:a.cto").data,
    text := some (("asset A {}").data), lineCount := 3 }

/-- Concrete fixture: a tracked ACL file. -/
def acl0 : AclFile :=
  { identifier := ("file:permissions.acl").data,
    text := some (("rule R {}").data), lineCount := 2 }

theorem claim_C5_witness :
    publishedFor (validateCtoModelFile libOk st0 doc0).2 doc0.uri = [[]] := by
  obtain ⟨ds, h1, h2, _⟩ := (claim_C5_exactly_one_publish libOk st0 doc0 acl0).1
  rw [h1, h2 rfl]

/-- Claim C6: a non-permissions document change with non-empty text triggers,
in order, model validation plus a publish for the document's URI, then -- if
and only if an ACL file is tracked -- ACL revalidation plus a separate
publish for the ACL file's URI, even when the model validation threw (the
statement holds for every library behaviour, including throwing ones). -/
theorem claim_C6_model_validation_cascade (lib : Library) (st : ServerState)
    (textDocument : TextDocument) (t : JSString)
    (htxt : textDocument.text = some t) (hlen : t.length > 0)
    (hlang : ¬ textDocument.languageId = ("composer-acl").data) :
    (st.aclFile = none →
      ∃ d1, (validateTextDocument lib st textDocument).2 =
        [ServerEvent.callAddModelFile textDocument.text,
         ServerEvent.sendDiagnostics textDocument.uri d1]) ∧
    (∀ f, st.aclFile = some f →
      ∃ d1 d2, (validateTextDocument lib st textDocument).2 =
        [ServerEvent.callAddModelFile textDocument.text,
         ServerEvent.sendDiagnostics textDocument.uri d1,
         ServerEvent.callAclValidate f.identifier,
         ServerEvent.sendDiagnostics f.identifier d2]) := by
  have hb : (textDocument.languageId == ("composer-acl").data) = false :=
    beq_eq_false_iff_ne.mpr hlang
  have hred : validateTextDocument lib st textDocument =
      (match validateCtoModelFile lib st textDocument with
       | (st1, evs1) =>
         match st1.aclFile with
         | some aclFile => (st1, evs1 ++ validateExistingAclModelFile lib aclFile)
         | none => (st1, evs1)) := by
    simp only [validateTextDocument, htxt]
    rw [if_pos hlen, if_neg (by simp [hb])]
  obtain ⟨d1, hd1⟩ := validateCtoModelFile_events lib st textDocument
  have hacl := validateCtoModelFile_aclFile lib st textDocument
  rcases hc : validateCtoModelFile lib st textDocument with ⟨st1, evs1⟩
  rw [hc] at hd1 hacl
  simp only at hd1 hacl
  rw [hc] at hred
  simp only at hred
  constructor
  · intro hnone
    refine ⟨d1, ?_⟩
    rw [hred, hacl, hnone]
    simp [hd1]
  · intro f hf
    obtain ⟨d2, hd2⟩ := validateExistingAclModelFile_events lib f
    refine ⟨d1, d2, ?_⟩
    rw [hred, hacl, hf]
    simp [hd1, hd2]

/-- Concrete fixture: a server state already tracking `acl0`. -/
def stAcl : ServerState := { modelFiles := [], aclFile := some acl0 }

theorem claim_C6_witness :
    ∃ d1 d2, (validateTextDocument libOk stAcl doc0).2 =
      [ServerEvent.callAddModelFile doc0.text,
       ServerEvent.sendDiagnostics doc0.uri d1,
       ServerEvent.callAclValidate acl0.identifier,
       ServerEvent.sendDiagnostics acl0.identifier d2] :=
  (claim_C6_model_validation_cascade libOk stAcl doc0 (("asset A {}").data)
    rfl (by decide) (by decide)).2 acl0 rfl

/-- Claim C7: a document change whose text is null or empty performs no
validation call and no diagnostics publish, and leaves the managers
unchanged: the result is exactly the unchanged state with an empty event
list, for every library behaviour. -/
theorem claim_C7_empty_text_noop (lib : Library) (st : ServerState)
    (textDocument : TextDocument) :
    (textDocument.text = none →
      validateTextDocument lib st textDocument = (st, [])) ∧
    (∀ t, textDocument.text = some t → t.length = 0 →
      validateTextDocument lib st textDocument = (st, [])) := by
  constructor
  · intro h
    simp [validateTextDocument, h]
  · intro t h hlen
    simp [validateTextDocument, h, hlen]

/-- Concrete fixture: a document whose text is empty. -/
def docEmpty : TextDocument :=
  { languageId := ("composer").data, uri := ("file:b.cto").data,
    text := some [], lineCount := 1 }

theorem claim_C7_witness :
    validateTextDocument libOk st0 docEmpty = (st0, []) :=
  (claim_C7_empty_text_noop libOk st0 docEmpty).2 [] rfl rfl

/-- Claim C8: validating a permissions-kind document installs a fresh
`AclFile` built from the full document text, carrying the document's line
count (recorded before `setAclFile`), as the single tracked ACL file, fully
replacing any previously tracked one regardless of the prior state. -/
theorem claim_C8_single_acl_replacement (lib : Library) (st : ServerState)
    (textDocument : TextDocument) (t : JSString)
    (htxt : textDocument.text = some t) (hlen : t.length > 0)
    (hlang : textDocument.languageId = ("composer-acl").data) :
    (validateTextDocument lib st textDocument).1.aclFile =
      some { createAclFile textDocument.uri textDocument.text with
             lineCount := textDocument.lineCount } := by
  have hb : (textDocument.languageId == ("composer-acl").data) = true := by
    simp [hlang]
  have hroute : validateTextDocument lib st textDocument =
      validateNewAclModelFile lib st textDocument := by
    simp only [validateTextDocument, htxt]
    rw [if_pos hlen, if_pos (by simp [hb])]
  rw [hroute]
  simp only [validateNewAclModelFile, setAclFile]
  cases hV : lib.aclValidate { createAclFile textDocument.uri textDocument.text with
      lineCount := textDocument.lineCount } <;> rfl

/-- Concrete fixture: a permissions document. -/
def docAcl : TextDocument :=
  { languageId := ("composer-acl").data, uri := ("file:permissions.acl").data,
    text := some (("rule R2 {}").data), lineCount := 4 }

theorem claim_C8_witness :
    (validateTextDocument libOk stAcl docAcl).1.aclFile =
      some { identifier := ("file:permissions.acl").data,
             text := some (("rule R2 {}").data), lineCount := 4 } := by
  have h := claim_C8_single_acl_replacement libOk stAcl docAcl
    (("rule R2 {}").data) rfl (by decide) rfl
  rw [h]
  decide

/-- Claim C9: in the diagram materialization flow, when the edit replacing
the temporary file's content is not applied, the remaining sequence (save,
preview invocation, closing the temporary editor, refocusing) is aborted and
only a message is surfaced: the continuation performs exactly the one log
action. -/
theorem claim_C9_edit_not_applied_aborts (cfg : UmlFlowConfig)
    (env : UmlFlowEnv) (h : env.editApplied = false) :
    handleGenerateUmlAfterEdit cfg env =
      [ClientAction.consoleLog (("Client could not apply edit").data)] := by
  simp [handleGenerateUmlAfterEdit, h]

/-- Concrete fixture: a diagram-flow environment whose edit was not applied. -/
def envNoEdit : UmlFlowEnv :=
  { editApplied := false, saved := true, previewOutcome := Except.ok none,
    activeEditorUri := none, visibleEditors := [], openTextDocuments := [],
    umlDocUri := ("file:composer.puml").data,
    originatingFileName := ("file:a.cto").data }

/-- Concrete fixture: a diagram-flow configuration. -/
def cfg0 : UmlFlowConfig := { keepSrcFileOpen := false, autoShowDiagam := true }

theorem claim_C9_witness :
    handleGenerateUmlAfterEdit cfg0 envNoEdit =
      [ClientAction.consoleLog (("Client could not apply edit").data)] :=
  claim_C9_edit_not_applied_aborts cfg0 envNoEdit rfl

/-- Concrete fixture: an error whose name contains `". Line "`, so the
fallback truncation cuts inside the name. -/
def c10err : ComposerError :=
  { name := ("X. Line 1").data, message := ("m").data,
    getFileLocation := FileLocationAccessor.noAccessor }

/-- Claim C10 counterexample: for the error named `"X. Line 1"` with message
`"m"`, the emitted message is `"X."`, which does not begin with
`err.name ++ ": "`: the fallback truncation can cut into the name itself. -/
theorem claim_C10_counterexample :
    ¬ ((c10err.name ++ (": ").data) <+:
        (buildDiagnosticFromException c10err 5).message) ∧
    (buildDiagnosticFromException c10err 5).message = ("X.").data := by
  exact ⟨by decide, by decide⟩

/-- Claim C10 (amended): in every path the emitted diagnostic's message is a
prefix of `err.name ++ ": " ++ err.message`; in the structured-location and
default paths it is exactly that concatenation (hence begins with the name
followed by `": "`), while the truncated fallback emits the prefix cut just
after the period before the last `" Line"`, which can cut into the name
itself when the only `". Line "` occurrence lies inside the name. -/
theorem claim_C10_amended_prefixed_message (err : ComposerError)
    (lineCount : Int) :
    ((buildDiagnosticFromException err lineCount).message <+: jsFullMsg err) ∧
    (∀ location, err.getFileLocation = FileLocationAccessor.accessor location →
      (buildDiagnosticFromException err lineCount).message = jsFullMsg err) ∧
    (err.getFileLocation = FileLocationAccessor.noAccessor →
      lastIndexOf (jsFullMsg err) lineMarker = -1 →
      (buildDiagnosticFromException err lineCount).message = jsFullMsg err) := by
  refine ⟨?_, ?_, ?_⟩
  · cases hacc : err.getFileLocation with
    | accessor location =>
      cases location with
      | some l =>
        have hm : (buildDiagnosticFromException err lineCount).message =
            jsFullMsg err := by
          simp [buildDiagnosticFromException, buildDiagnosticRangeMsg, hacc]
        rw [hm]
      | none =>
        have hm : (buildDiagnosticFromException err lineCount).message =
            jsFullMsg err := by
          simp [buildDiagnosticFromException, buildDiagnosticRangeMsg, hacc]
        rw [hm]
    | noAccessor =>
      by_cases hidx : lastIndexOf (jsFullMsg err) lineMarker = -1
      · have hm : (buildDiagnosticFromException err lineCount).message =
            jsFullMsg err := by
          simp [buildDiagnosticFromException, buildDiagnosticRangeMsg, hacc, hidx]
        rw [hm]
      · have h := buildRangeMsg_fallback_clamp err lineCount hacc hidx
        have hm : (buildDiagnosticFromException err lineCount).message =
            substr2 (jsFullMsg err) 0
              (lastIndexOf (jsFullMsg err) lineMarker + 1) := by
          simp [buildDiagnosticFromException, h]
        rw [hm]
        exact substr2_zero_prefix_self _ _
  · intro location hacc
    cases location with
    | some l => simp [buildDiagnosticFromException, buildDiagnosticRangeMsg, hacc]
    | none => simp [buildDiagnosticFromException, buildDiagnosticRangeMsg, hacc]
  · intro hacc hidx
    simp [buildDiagnosticFromException, buildDiagnosticRangeMsg, hacc, hidx]

/-- Concrete fixture: an error whose accessor returns a falsy location. -/
def c10okerr : ComposerError :=
  { name := ("RangeError").data, message := ("nope").data,
    getFileLocation := FileLocationAccessor.accessor none }

theorem claim_C10_witness :
    (buildDiagnosticFromException c10okerr 3).message = jsFullMsg c10okerr :=
  (claim_C10_amended_prefixed_message c10okerr 3).2.1 none rfl

end ComposerVSCode
